import Mathlib

/-!
Shallow embedding of `src/partition/segment_iterator.rs` (pathivu).

Bytes are modelled as `Nat`, byte buffers as `List Nat`, `u64`/`usize` values
as `Nat`, with the two observable usize wraparounds in `next` — the
`len - 1` bounds check and the cursor increment — modelled explicitly with
release-build wrapping semantics (`usizeWrapSub1`, `usizeWrapSucc`; a debug
build panics at the same two points).  External collaborators are passed in
as parameters:

* the key-value store (`Store::get`, spec section 6: point lookup returning an
  optional value) is a total function `String → Option (List Nat)`;
* `posting_list::decode_posting_list` (external codec, source not in scope) is
  an opaque fallible decoder `List Nat → Except String (List Nat)`;
* the finite-state term set for `(partition, id)` is an
  `Option (List String)`: `none` models a failed open of the `.fst` file,
  `some terms` models the set's term stream;
* the raw segment file contents are an `Option (List Nat)`: `none` models a
  failed open/read.

Fallible Rust paths are made explicit by `RunResult`: `err` is a recoverable
`Err` propagated with `?`, `panic` is a process panic (`panic!` in the source,
or an out-of-bounds slice index).
-/

/-- Outcome of running a fallible piece of the Rust code: `ok` a value,
`err` a recoverable error (Rust `Err` propagated by the question-mark
operator), or `panic` a process panic. -/
inductive RunResult (α : Type) where
  | ok : α → RunResult α
  | err : String → RunResult α
  | panic : String → RunResult α
  deriving DecidableEq

/-- One decoded log record, `struct Entry { line: Vec<u8>, ts: u64 }`. -/
structure Entry where
  line : List Nat
  ts : Nat
  deriving DecidableEq

/-- Modelled from the spec: `util::decode_u64` (src/util is not in scope).
The spec (section 4.1) fixes an 8-byte unsigned 64-bit decode with a fixed,
encoder-defined endianness but does not name it; big-endian is chosen here.
No claim depends on the choice of endianness. -/
def decode_u64 (bytes : List Nat) : Nat :=
  bytes.foldl (fun acc b => acc * 256 + b % 256) 0

/-- Rust slice indexing `&buf[a..b]`: defined (`some`) exactly when
`a ≤ b ∧ b ≤ buf.length`, otherwise the program panics (`none`). -/
def sliceBytes (buf : List Nat) (a b : Nat) : Option (List Nat) :=
  if a ≤ b ∧ b ≤ buf.length then some ((buf.drop a).take (b - a)) else none

/-- `decode_entry(line_buf)`: first 8 bytes are the timestamp, the rest is
the line.  `&line_buf[..8]` panics (`none`) when the buffer is shorter than
8 bytes. -/
def decode_entry (line_buf : List Nat) : Option Entry :=
  match sliceBytes line_buf 0 8 with
  | none => none
  | some tsBytes => some { ts := decode_u64 tsBytes, line := line_buf.drop 8 }

/-- Levenshtein edit distance between two character strings (unit cost for
insert, delete and substitute); the acceptance predicate of the
`fst_levenshtein` automaton built by `Levenshtein::new(&query, 2)` is
`editDistance query term ≤ 2`. -/
def editDistance (a b : List Char) : Nat :=
  levenshtein Levenshtein.defaultCost a b

/-- Posting-list key `format!("{}_{}_{}_{}", SEGMENT_PREFIX, partition, id, term)`.
`SEGMENT_PREFIX` is the caller-supplied `pfx` (its concrete value lives in
src/types, outside the scoped source; no claim depends on it). -/
def indexKey (pfx partition : String) (id : Nat) (term : String) : String :=
  pfx ++ "_" ++ partition ++ "_" ++ toString id ++ "_" ++ term

/-- Term resolution phase of `SegmentIterator::new` (segment_iterator.rs
lines 64-101): a non-empty query opens the finite-state set (`none` models a
failed open, propagated as an error) and keeps every term within edit
distance 2 of the query; an empty query resolves to the single catch-all key
built from the `POSTING_LIST_ALL` sentinel (`allSentinel`), without touching
the finite-state set. -/
def resolveTermKeys (pfx allSentinel : String) (fstSet : Option (List String))
    (id : Nat) (partition : String) (query : String) : Except String (List String) :=
  if query ≠ "" then
    match fstSet with
    | none => Except.error "failed to open fst index"
    | some terms =>
      Except.ok ((terms.filter
        (fun t => decide (editDistance query.data t.data ≤ 2))).map
          (fun t => indexKey pfx partition id t))
  else
    Except.ok [indexKey pfx partition id allSentinel]

/-- Posting-list fetch loop of `SegmentIterator::new`: for each resolved key,
`store.get` returning `None` is a `panic!` (exact source message, including
its double space), a decode failure is a recoverable error, and decoded
offsets are appended to the accumulator. -/
def fetchPostingLists (store : String → Option (List Nat))
    (decodePL : List Nat → Except String (List Nat)) :
    List String → List Nat → RunResult (List Nat)
  | [], acc => RunResult.ok acc
  | key :: rest, acc =>
    match store key with
    | none => RunResult.panic ("posting list not found for the index  key " ++ key)
    | some bytes =>
      match decodePL bytes with
      | Except.error e => RunResult.err e
      | Except.ok list => fetchPostingLists store decodePL rest (acc ++ list)

/-- Offset-collection loop of `SegmentIterator::new` (segment_iterator.rs
lines 112-136).  Faithful to the source, including its seen-set handling: the
source mutates `read_offset` to `line_offset + 8` before decoding and then
executes `seen_set.insert(read_offset)`, so the value marked seen is
`line_offset + 8`, and the `continue` on the already-seen branch skips the
insert altogether. -/
def collectEntries (buffer : List Nat) (start_ts end_ts : Nat) :
    List Nat → List Nat → List Entry → RunResult (List Entry)
  | [], _, entries => RunResult.ok entries
  | line_offset :: rest, seen_set, entries =>
    if line_offset ∈ seen_set then
      collectEntries buffer start_ts end_ts rest seen_set entries
    else
      match sliceBytes buffer line_offset (line_offset + 8) with
      | none => RunResult.panic "range out of bounds for segment buffer"
      | some lenBytes =>
        match sliceBytes buffer (line_offset + 8)
            (line_offset + 8 + decode_u64 lenBytes) with
        | none => RunResult.panic "range out of bounds for segment buffer"
        | some entryBuf =>
          match decode_entry entryBuf with
          | none => RunResult.panic "range out of bounds for entry buffer"
          | some entry =>
            collectEntries buffer start_ts end_ts rest (seen_set ++ [line_offset + 8])
              (if (start_ts ≤ entry.ts ∧ entry.ts ≤ end_ts) ∨ (start_ts = 0 ∧ end_ts = 0)
               then entries ++ [entry]
               else entries)

/-- `struct SegmentIterator` (the store handle, a type parameter in the
source, carries no observable state and is kept outside the structure). -/
structure SegmentIterator where
  entries : List Entry
  id : Nat
  current_index : Nat
  nothing_track : Bool
  partition : String
  deriving DecidableEq

/-- `SegmentIterator::new`: resolve term keys, fetch and decode every posting
list, sort the accumulated offsets (`entry_indices.sort()`), open and read
the segment file (`none` models an open/read failure), then run the
collection loop and materialize the iterator with its cursor at 0. -/
def SegmentIterator.new (pfx allSentinel : String) (fstSet : Option (List String))
    (store : String → Option (List Nat))
    (decodePL : List Nat → Except String (List Nat))
    (segmentFile : Option (List Nat))
    (id : Nat) (query partition : String)
    (start_ts end_ts : Nat) : RunResult SegmentIterator :=
  match resolveTermKeys pfx allSentinel fstSet id partition query with
  | Except.error e => RunResult.err e
  | Except.ok keys =>
    match fetchPostingLists store decodePL keys [] with
    | RunResult.err e => RunResult.err e
    | RunResult.panic m => RunResult.panic m
    | RunResult.ok entry_indices =>
      match segmentFile with
      | none => RunResult.err "failed to open segment file"
      | some buffer =>
        match collectEntries buffer start_ts end_ts
            (entry_indices.insertionSort (· ≤ ·)) [] [] with
        | RunResult.err e => RunResult.err e
        | RunResult.panic m => RunResult.panic m
        | RunResult.ok entries =>
          RunResult.ok
            { entries := entries, id := id, current_index := 0,
              nothing_track := true, partition := partition }

/-- `entry(&self)`: the element at the cursor, if any.  The receiver is a
shared reference in the source, so a call cannot change the iterator. -/
def SegmentIterator.entry (it : SegmentIterator) : Option Entry :=
  it.entries.get? it.current_index

/-- Release-mode wrapping semantics of the usize subtraction
`self.entries.len() - 1`: for a non-empty list this is `n - 1`; for the
empty list it wraps to `2 ^ 64 - 1` (a debug build panics instead — either
behavior refutes the no-underflow property P5). -/
def usizeWrapSub1 (n : Nat) : Nat :=
  (n + (2 ^ 64 - 1)) % 2 ^ 64

/-- Release-mode wrapping semantics of the usize cursor increment
`self.current_index + 1` (a debug build panics at `usize::MAX` instead). -/
def usizeWrapSucc (n : Nat) : Nat :=
  (n + 1) % 2 ^ 64

/-- `next(&mut self)`: bounds check against `len - 1`, then increment the
cursor; returns `none` as the exhaustion signal, `some ()` to continue. -/
def SegmentIterator.next (it : SegmentIterator) : Option Unit × SegmentIterator :=
  if it.current_index ≥ usizeWrapSub1 it.entries.length then
    (none, { it with current_index := usizeWrapSucc it.current_index })
  else
    (some (), { it with current_index := usizeWrapSucc it.current_index })

/-- State of the iterator after `k` calls to `next`, discarding the signals. -/
def nextN (it : SegmentIterator) (k : Nat) : SegmentIterator :=
  (fun s => (SegmentIterator.next s).2)^[k] it

/-- An entry has an in-bounds provenance in `buffer`: some offset whose
8-byte length field and whole declared payload slice lie inside the buffer
decodes to exactly this entry. -/
def decodedInBounds (buffer : List Nat) (e : Entry) : Prop :=
  ∃ o lenBytes entryBuf,
    sliceBytes buffer o (o + 8) = some lenBytes ∧
    sliceBytes buffer (o + 8) (o + 8 + decode_u64 lenBytes) = some entryBuf ∧
    decode_entry entryBuf = some e


/-- Concrete 16-byte segment buffer: at offset 0, an 8-byte length field with
value 8 followed by an 8-byte timestamp 100 and an empty line. -/
def bufTs100 : List Nat := [0, 0, 0, 0, 0, 0, 0, 8, 0, 0, 0, 0, 0, 0, 0, 100]

/-- Iterator produced by a successful construction over `bufTs100` with a
single posting-list offset 0. -/
def itTs100 : SegmentIterator :=
  { entries := [{ line := [], ts := 100 }], id := 7, current_index := 0,
    nothing_track := true, partition := "p" }

/-- Iterator the code produces when two fuzzy-matched terms both post
offset 0 over `bufTs100`: the duplicate offset is decoded twice. -/
def dupIt : SegmentIterator :=
  { entries := [{ line := [], ts := 100 }, { line := [], ts := 100 }], id := 7,
    current_index := 0, nothing_track := true, partition := "p" }

/-- Iterator produced by a construction whose resolution yields no entries. -/
def emptySegIt : SegmentIterator :=
  { entries := [], id := 7, current_index := 0, nothing_track := true,
    partition := "p" }

/-- Concrete 17-byte segment buffer: length field 9, timestamp 100, one line
byte 104. -/
def bufTs100Line : List Nat :=
  [0, 0, 0, 0, 0, 0, 0, 9, 0, 0, 0, 0, 0, 0, 0, 100, 104]

/-- Iterator produced over `bufTs100Line` with offset 0 and range (50, 150). -/
def itTs100Line : SegmentIterator :=
  { entries := [{ line := [104], ts := 100 }], id := 7, current_index := 0,
    nothing_track := true, partition := "p" }

/-! ## Supporting lemmas -/

theorem sliceBytes_eq_some {buf : List Nat} {a b : Nat} (h1 : a ≤ b)
    (h2 : b ≤ buf.length) :
    sliceBytes buf a b = some ((buf.drop a).take (b - a)) := by
  unfold sliceBytes
  rw [if_pos ⟨h1, h2⟩]

theorem sliceBytes_eq_none {buf : List Nat} {a b : Nat} (h : buf.length < b) :
    sliceBytes buf a b = none := by
  unfold sliceBytes
  rw [if_neg]
  rintro ⟨-, hb⟩
  omega

/-- Every entry in a successful run of the collection loop either was already
in the accumulator or passed the timestamp filter and was decoded from a
fully in-bounds record. -/
theorem collectEntries_ok_mem (buffer : List Nat) (s t : Nat) :
    ∀ (offs seen : List Nat) (acc res : List Entry),
      collectEntries buffer s t offs seen acc = RunResult.ok res →
      ∀ e ∈ res, e ∈ acc ∨
        (((s ≤ e.ts ∧ e.ts ≤ t) ∨ (s = 0 ∧ t = 0)) ∧ decodedInBounds buffer e) := by
  intro offs
  induction offs with
  | nil =>
    intro seen acc res h e he
    simp only [collectEntries] at h
    injection h with h
    subst h
    exact Or.inl he
  | cons o rest ih =>
    intro seen acc res h e he
    simp only [collectEntries] at h
    by_cases hseen : o ∈ seen
    · rw [if_pos hseen] at h
      exact ih seen acc res h e he
    · rw [if_neg hseen] at h
      cases h1 : sliceBytes buffer o (o + 8) with
      | none => simp only [h1] at h; exact RunResult.noConfusion h
      | some lenBytes =>
        simp only [h1] at h
        cases h2 : sliceBytes buffer (o + 8) (o + 8 + decode_u64 lenBytes) with
        | none => simp only [h2] at h; exact RunResult.noConfusion h
        | some entryBuf =>
          simp only [h2] at h
          cases h3 : decode_entry entryBuf with
          | none => simp only [h3] at h; exact RunResult.noConfusion h
          | some entry =>
            simp only [h3] at h
            by_cases hc : (s ≤ entry.ts ∧ entry.ts ≤ t) ∨ (s = 0 ∧ t = 0)
            · rw [if_pos hc] at h
              rcases ih _ _ _ h e he with hmem | hgood
              · rcases List.mem_append.mp hmem with hacc | hent
                · exact Or.inl hacc
                · have : e = entry := by simpa using hent
                  subst this
                  exact Or.inr ⟨hc, o, lenBytes, entryBuf, h1, h2, h3⟩
              · exact Or.inr hgood
            · rw [if_neg hc] at h
              exact ih _ _ _ h e he

/-- A successful `SegmentIterator::new` starts its cursor at 0 and its entry
list is exactly the output of the collection loop over the sorted offsets
read from some successfully opened segment buffer. -/
theorem new_ok_spec (pfx allSentinel : String) (fstSet : Option (List String))
    (store : String → Option (List Nat))
    (decodePL : List Nat → Except String (List Nat))
    (segmentFile : Option (List Nat)) (id : Nat) (query partition : String)
    (start_ts end_ts : Nat) (it : SegmentIterator)
    (h : SegmentIterator.new pfx allSentinel fstSet store decodePL segmentFile
      id query partition start_ts end_ts = RunResult.ok it) :
    it.current_index = 0 ∧ ∃ buffer offs, segmentFile = some buffer ∧
      collectEntries buffer start_ts end_ts offs [] [] = RunResult.ok it.entries := by
  unfold SegmentIterator.new at h
  cases hres : resolveTermKeys pfx allSentinel fstSet id partition query with
  | error e =>
    simp only [hres] at h
    exact RunResult.noConfusion h
  | ok keys =>
    simp only [hres] at h
    cases hfetch : fetchPostingLists store decodePL keys [] with
    | err e => simp only [hfetch] at h; exact RunResult.noConfusion h
    | panic m => simp only [hfetch] at h; exact RunResult.noConfusion h
    | ok idxs =>
      simp only [hfetch] at h
      cases segmentFile with
      | none => exact RunResult.noConfusion h
      | some buffer =>
        cases hcol : collectEntries buffer start_ts end_ts
            (idxs.insertionSort (· ≤ ·)) [] [] with
        | err e => simp only [hcol] at h; exact RunResult.noConfusion h
        | panic m => simp only [hcol] at h; exact RunResult.noConfusion h
        | ok entries =>
          simp only [hcol] at h
          injection h with h
          subst h
          exact ⟨rfl, buffer, idxs.insertionSort (· ≤ ·), rfl, hcol⟩

/-- Both branches of `next` advance the cursor by the wrapping increment. -/
theorem next_snd (it : SegmentIterator) :
    (SegmentIterator.next it).2 =
      { it with current_index := usizeWrapSucc it.current_index } := by
  unfold SegmentIterator.next
  split <;> rfl

/-- When the cursor has reached the bounds check, `next` signals exhaustion. -/
theorem next_fst_of_ge (it : SegmentIterator)
    (h : it.current_index ≥ usizeWrapSub1 it.entries.length) :
    (SegmentIterator.next it).1 = none := by
  unfold SegmentIterator.next
  rw [if_pos h]

/-- `k` calls to `next` advance the cursor by `k` modulo `2 ^ 64` and leave
the entry list unchanged. -/
theorem nextN_spec (it : SegmentIterator) (k : Nat)
    (h : it.current_index < 2 ^ 64) :
    (nextN it k).current_index = (it.current_index + k) % 2 ^ 64 ∧
      (nextN it k).entries = it.entries := by
  induction k with
  | zero => exact ⟨(Nat.mod_eq_of_lt h).symm, rfl⟩
  | succ k ih =>
    have hstep : nextN it (k + 1) = (SegmentIterator.next (nextN it k)).2 := by
      unfold nextN
      exact Function.iterate_succ_apply' _ k it
    rw [hstep, next_snd]
    refine ⟨?_, by simp [ih.2]⟩
    show usizeWrapSucc (nextN it k).current_index = _
    rw [ih.1]
    unfold usizeWrapSucc
    rw [Nat.mod_add_mod, Nat.add_assoc]

/-- On `1 ≤ n ≤ 2^64` the wrapped `len - 1` agrees with natural subtraction. -/
theorem usizeWrapSub1_eq_sub_one {n : Nat} (h1 : 1 ≤ n) (h2 : n ≤ 2 ^ 64) :
    usizeWrapSub1 n = n - 1 := by
  unfold usizeWrapSub1
  have h64 : (2 : Nat) ^ 64 = 18446744073709551616 := by norm_num
  rw [h64] at h2 ⊢
  omega

/-- If every key before `k` fetches and decodes successfully and the store
has no value for `k`, the fetch loop panics with the source's message. -/
theorem fetchPostingLists_missing (store : String → Option (List Nat))
    (decodePL : List Nat → Except String (List Nat)) (k : String)
    (hmiss : store k = none) :
    ∀ (pre post : List String) (acc : List Nat),
      (∀ k' ∈ pre, ∃ b l, store k' = some b ∧ decodePL b = Except.ok l) →
      fetchPostingLists store decodePL (pre ++ k :: post) acc =
        RunResult.panic ("posting list not found for the index  key " ++ k) := by
  intro pre
  induction pre with
  | nil =>
    intro post acc _
    simp only [List.nil_append, fetchPostingLists, hmiss]
  | cons k2 pre ih =>
    intro post acc hpre
    obtain ⟨b, l, hb, hl⟩ := hpre k2 (by simp)
    simp only [List.cons_append, fetchPostingLists, hb, hl]
    exact ih post (acc ++ l) (fun x hx => hpre x (by simp [hx]))

/-! ## Claim theorems -/

/-- Claim C3: every entry in the materialized result list of a successfully
constructed SegmentIterator satisfies `start_ts ≤ ts ≤ end_ts`, or both
`start_ts = 0` and `end_ts = 0` (the no-filter sentinel); no entry violating
this condition ever appears in the result. -/
theorem c3_timestamp_filter (pfx allSentinel : String)
    (fstSet : Option (List String)) (store : String → Option (List Nat))
    (decodePL : List Nat → Except String (List Nat))
    (segmentFile : Option (List Nat)) (id : Nat) (query partition : String)
    (start_ts end_ts : Nat) (it : SegmentIterator)
    (h : SegmentIterator.new pfx allSentinel fstSet store decodePL segmentFile
      id query partition start_ts end_ts = RunResult.ok it) :
    ∀ e ∈ it.entries,
      (start_ts ≤ e.ts ∧ e.ts ≤ end_ts) ∨ (start_ts = 0 ∧ end_ts = 0) := by
  obtain ⟨-, buffer, offs, -, hcol⟩ := new_ok_spec pfx allSentinel fstSet store
    decodePL segmentFile id query partition start_ts end_ts it h
  intro e he
  rcases collectEntries_ok_mem buffer start_ts end_ts offs [] [] it.entries
      hcol e he with h2 | ⟨hk, -⟩
  · simp at h2
  · exact hk

theorem c3_timestamp_filter_witness :
    SegmentIterator.new "seg" "all" none (fun _ => some [])
        (fun _ => Except.ok [0]) (some bufTs100Line) 7 "" "p" 50 150 =
      RunResult.ok itTs100Line ∧
    ((50 ≤ ({ line := [104], ts := 100 } : Entry).ts ∧
        ({ line := [104], ts := 100 } : Entry).ts ≤ 150) ∨
      ((50 : Nat) = 0 ∧ (150 : Nat) = 0)) :=
  ⟨by decide,
   c3_timestamp_filter "seg" "all" none (fun _ => some [])
     (fun _ => Except.ok [0]) (some bufTs100Line) 7 "" "p" 50 150 itTs100Line
     (by decide) { line := [104], ts := 100 } (by decide)⟩

/-- Claim C4: a construction with an empty query string resolves to exactly
one posting-list key, the sentinel key
`{SEGMENT_PREFIX}_{partition}_{id}_{POSTING_LIST_ALL}`, and the result of
resolution is independent of the finite-state term index (which is never
opened or queried on this path): the resolved key list is the same for every
state of the index, including a failed open (`none`).  The fetch loop then
looks up exactly the resolved keys, hence exactly this one. -/
theorem c4_empty_query_sentinel (pfx allSentinel : String)
    (fstSet fstSet2 : Option (List String)) (id : Nat) (partition : String) :
    resolveTermKeys pfx allSentinel fstSet id partition "" =
      Except.ok [indexKey pfx partition id allSentinel] ∧
    resolveTermKeys pfx allSentinel fstSet id partition "" =
      resolveTermKeys pfx allSentinel fstSet2 id partition "" := by
  constructor <;> simp [resolveTermKeys]

/-- Claim C8: on any buffer of length at least 8, `decode_entry` succeeds
and returns the timestamp decoded from the first 8 bytes together with an
owned copy of exactly the bytes from index 8 to the end. -/
theorem c8_decode_entry_layout (buf : List Nat) (h : 8 ≤ buf.length) :
    decode_entry buf =
      some { ts := decode_u64 (buf.take 8), line := buf.drop 8 } := by
  unfold decode_entry
  rw [sliceBytes_eq_some (Nat.zero_le 8) h]
  simp

theorem c8_decode_entry_layout_witness :
    8 ≤ ([0, 0, 0, 0, 0, 0, 0, 100, 104, 105] : List Nat).length ∧
    decode_entry [0, 0, 0, 0, 0, 0, 0, 100, 104, 105] =
      some { ts := decode_u64 (([0, 0, 0, 0, 0, 0, 0, 100, 104, 105] : List Nat).take 8),
             line := ([0, 0, 0, 0, 0, 0, 0, 100, 104, 105] : List Nat).drop 8 } :=
  ⟨by decide, c8_decode_entry_layout [0, 0, 0, 0, 0, 0, 0, 100, 104, 105] (by decide)⟩

/-- Claim C5 (amended): for a successfully constructed iterator whose
result has length `n ≥ 1`, after `n` calls to `next` from the initial
position — and after any number `k` of further calls, as long as the total
`n + k` stays below `2^64` — `entry` returns `none` and `next` returns the
exhaustion signal `none`.  The bound is forced by the usize cursor: at
`2^64` total calls a release build wraps the cursor back to 0 (see the
counterexample), and a debug build panics at `usize::MAX`. -/
theorem c5_exhaustion_terminal (pfx allSentinel : String)
    (fstSet : Option (List String)) (store : String → Option (List Nat))
    (decodePL : List Nat → Except String (List Nat))
    (segmentFile : Option (List Nat)) (id : Nat) (query partition : String)
    (start_ts end_ts : Nat) (it : SegmentIterator) (n : Nat)
    (h : SegmentIterator.new pfx allSentinel fstSet store decodePL segmentFile
      id query partition start_ts end_ts = RunResult.ok it)
    (hn : it.entries.length = n) (h1 : 1 ≤ n) :
    ∀ k, n + k < 2 ^ 64 →
      SegmentIterator.entry (nextN it (n + k)) = none ∧
      (SegmentIterator.next (nextN it (n + k))).1 = none := by
  obtain ⟨hidx, -⟩ := new_ok_spec pfx allSentinel fstSet store decodePL
    segmentFile id query partition start_ts end_ts it h
  intro k hk
  have h0 : it.current_index < 2 ^ 64 := by
    rw [hidx]
    norm_num
  have hci : (nextN it (n + k)).current_index = n + k := by
    rw [(nextN_spec it (n + k) h0).1, hidx, Nat.zero_add, Nat.mod_eq_of_lt hk]
  have hen : (nextN it (n + k)).entries = it.entries := (nextN_spec it (n + k) h0).2
  constructor
  · unfold SegmentIterator.entry
    rw [hci, hen]
    apply List.get?_eq_none.mpr
    omega
  · apply next_fst_of_ge
    rw [hci, hen, hn, usizeWrapSub1_eq_sub_one h1 (by omega)]
    omega

theorem c5_exhaustion_terminal_witness :
    SegmentIterator.new "seg" "all" none (fun _ => some [])
        (fun _ => Except.ok [0]) (some bufTs100) 7 "" "p" 0 0 =
      RunResult.ok itTs100 ∧
    itTs100.entries.length = 1 ∧ 1 ≤ 1 ∧ 1 + 0 < 2 ^ 64 ∧
    (SegmentIterator.entry (nextN itTs100 (1 + 0)) = none ∧
      (SegmentIterator.next (nextN itTs100 (1 + 0))).1 = none) :=
  ⟨by decide, rfl, Nat.le_refl 1, by norm_num,
   c5_exhaustion_terminal "seg" "all" none (fun _ => some [])
     (fun _ => Except.ok [0]) (some bufTs100) 7 "" "p" 0 0 itTs100 1
     (by decide) rfl (Nat.le_refl 1) 0 (by norm_num)⟩

/-- Claim C5 as stated ("this exhaustion is terminal: every further next()
call returns none and entry() keeps returning none forever after") is false
on the code: after the single entry is exhausted (`entry` is none after one
call), `2^64 - 1` further calls wrap the release-build usize cursor back to
0 and `entry` returns the first entry again (a debug build instead panics
when the increment overflows). -/
theorem c5_wraparound_counterexample :
    SegmentIterator.new "seg" "all" none (fun _ => some [])
        (fun _ => Except.ok [0]) (some bufTs100) 7 "" "p" 0 0 =
      RunResult.ok itTs100 ∧
    SegmentIterator.entry (nextN itTs100 1) = none ∧
    SegmentIterator.entry (nextN itTs100 (1 + (2 ^ 64 - 1))) =
      some { line := [], ts := 100 } := by
  refine ⟨by decide, by decide, ?_⟩
  have h0 : itTs100.current_index < 2 ^ 64 := by norm_num [itTs100]
  have hspec := nextN_spec itTs100 (1 + (2 ^ 64 - 1)) h0
  unfold SegmentIterator.entry
  rw [hspec.1, hspec.2]
  have hci : itTs100.current_index = 0 := rfl
  have hmod : (itTs100.current_index + (1 + (2 ^ 64 - 1))) % 2 ^ 64 = 0 := by
    rw [hci]
    have h64 : (2 : Nat) ^ 64 = 18446744073709551616 := by norm_num
    rw [h64]
  rw [hmod]
  rfl

/-- Claim C10: immediately after a successful construction whose result list
is non-empty, the cursor is at index 0 (at the first element, not before
it), and `entry` returns that first entry.  `entry` takes the iterator by
shared reference in the source, so calling it repeatedly cannot change the
cursor; in the embedding it is a pure function of the state. -/
theorem c10_initial_cursor (pfx allSentinel : String)
    (fstSet : Option (List String)) (store : String → Option (List Nat))
    (decodePL : List Nat → Except String (List Nat))
    (segmentFile : Option (List Nat)) (id : Nat) (query partition : String)
    (start_ts end_ts : Nat) (it : SegmentIterator) (e0 : Entry) (tl : List Entry)
    (h : SegmentIterator.new pfx allSentinel fstSet store decodePL segmentFile
      id query partition start_ts end_ts = RunResult.ok it)
    (hent : it.entries = e0 :: tl) :
    it.current_index = 0 ∧ SegmentIterator.entry it = some e0 := by
  obtain ⟨hidx, -⟩ := new_ok_spec pfx allSentinel fstSet store decodePL
    segmentFile id query partition start_ts end_ts it h
  refine ⟨hidx, ?_⟩
  unfold SegmentIterator.entry
  rw [hidx, hent]
  rfl

theorem c10_initial_cursor_witness :
    SegmentIterator.new "seg" "all" none (fun _ => some [])
        (fun _ => Except.ok [0]) (some bufTs100) 7 "" "p" 0 0 =
      RunResult.ok itTs100 ∧
    itTs100.entries = { line := [], ts := 100 } :: [] ∧
    (itTs100.current_index = 0 ∧
      SegmentIterator.entry itTs100 = some { line := [], ts := 100 }) :=
  ⟨by decide, rfl,
   c10_initial_cursor "seg" "all" none (fun _ => some [])
     (fun _ => Except.ok [0]) (some bufTs100) 7 "" "p" 0 0 itTs100
     { line := [], ts := 100 } [] (by decide) rfl⟩

/-- Claim C9: for a non-empty query over a successfully opened finite-state
term set, resolution keeps exactly the terms accepted by the Levenshtein
automaton with maximum edit distance 2 (case-sensitive, no ranking), each
becoming the posting-list key later fetched by the loop over the resolved
keys; a key is resolved iff some term of the set is within edit distance 2
of the query, so terms at greater distance contribute nothing. -/
theorem c9_fuzzy_resolution (pfx allSentinel : String) (terms : List String)
    (id : Nat) (partition query : String) (ks : List String)
    (hq : query ≠ "")
    (hres : resolveTermKeys pfx allSentinel (some terms) id partition query =
      Except.ok ks) :
    ks = (terms.filter
        (fun t => decide (editDistance query.data t.data ≤ 2))).map
      (fun t => indexKey pfx partition id t) ∧
    ∀ k, k ∈ ks ↔ ∃ t, t ∈ terms ∧ editDistance query.data t.data ≤ 2 ∧
      k = indexKey pfx partition id t := by
  unfold resolveTermKeys at hres
  rw [if_pos hq] at hres
  injection hres with hres
  subst hres
  refine ⟨rfl, fun k => ?_⟩
  constructor
  · intro hk
    obtain ⟨t, ht, rfl⟩ := List.mem_map.mp hk
    obtain ⟨ht2, hd⟩ := List.mem_filter.mp ht
    exact ⟨t, ht2, of_decide_eq_true hd, rfl⟩
  · rintro ⟨t, ht, hd, rfl⟩
    exact List.mem_map.mpr ⟨t, List.mem_filter.mpr ⟨ht, decide_eq_true hd⟩, rfl⟩

theorem c9_fuzzy_resolution_witness :
    ("eror" ≠ "") ∧
    resolveTermKeys "seg" "all" (some ["err", "zzzzzz"]) 7 "p" "eror" =
      Except.ok ["seg_p_7_err"] ∧
    (["seg_p_7_err"] : List String) =
      ((["err", "zzzzzz"].filter
          (fun t => decide (editDistance "eror".data t.data ≤ 2))).map
        (fun t => indexKey "seg" "p" 7 t)) :=
  ⟨by decide, rfl,
   (c9_fuzzy_resolution "seg" "all" ["err", "zzzzzz"] 7 "p" "eror"
     ["seg_p_7_err"] (by decide) rfl).1⟩

/-- Claim C6: when the key-value store has no posting list for a resolved
term key (the keys before it having fetched and decoded fine), the
construction does not return a recoverable error value: it ends in the
distinguished `panic` outcome (the source's `panic!`, process-terminating),
so no iterator is produced. -/
theorem c6_missing_posting_list_fatal (pfx allSentinel : String)
    (fstSet : Option (List String)) (store : String → Option (List Nat))
    (decodePL : List Nat → Except String (List Nat))
    (segmentFile : Option (List Nat)) (id : Nat) (query partition : String)
    (start_ts end_ts : Nat) (pre post : List String) (k : String)
    (hres : resolveTermKeys pfx allSentinel fstSet id partition query =
      Except.ok (pre ++ k :: post))
    (hpre : ∀ k2 ∈ pre, ∃ b l, store k2 = some b ∧ decodePL b = Except.ok l)
    (hmiss : store k = none) :
    SegmentIterator.new pfx allSentinel fstSet store decodePL segmentFile
        id query partition start_ts end_ts =
      RunResult.panic ("posting list not found for the index  key " ++ k) := by
  unfold SegmentIterator.new
  simp only [hres]
  rw [fetchPostingLists_missing store decodePL k hmiss pre post [] hpre]

theorem c6_missing_posting_list_fatal_witness :
    resolveTermKeys "seg" "all" none 7 "p" "" =
      Except.ok ([] ++ "seg_p_7_all" :: []) ∧
    (fun (_ : String) => (none : Option (List Nat))) "seg_p_7_all" = none ∧
    SegmentIterator.new "seg" "all" none (fun _ => none)
        (fun _ => Except.ok []) (some []) 7 "" "p" 0 0 =
      RunResult.panic ("posting list not found for the index  key " ++ "seg_p_7_all") :=
  ⟨rfl, rfl,
   c6_missing_posting_list_fatal "seg" "all" none (fun _ => none)
     (fun _ => Except.ok []) (some []) 7 "" "p" 0 0 [] [] "seg_p_7_all"
     rfl (by simp) rfl⟩

/-- Claim C7 fails on the code: with posting-list offsets `[0, 8]` over the
16-byte buffer `bufTs100`, the length field at offset 8 decodes to 100, so
the implied payload slice `[16, 116)` extends past the end of the buffer;
yet construction succeeds.  Processing offset 0 inserted `0 + 8 = 8` into
the seen set (the same slip as C1), so the out-of-bounds-implying offset 8
aliases that entry and is silently skipped instead of failing fast as a
corruption error. -/
theorem c7_oob_offset_silently_skipped :
    SegmentIterator.new "seg" "all" none (fun _ => some [])
        (fun _ => Except.ok [0, 8]) (some bufTs100) 7 "" "p" 0 0 =
      RunResult.ok itTs100 ∧
    bufTs100.length < 8 + 8 + decode_u64 ((bufTs100.drop 8).take 8) :=
  ⟨by decide, by decide⟩

/-- Claim C1 fails on the code: with the two fuzzy-matched terms `err` and
`eror` (both within edit distance 2 of the query `eror`) whose posting lists
both contain offset 0, the constructed iterator holds TWO entries decoded
from the single distinct offset 0.  The source inserts `line_offset + 8`
(the already-advanced read offset) into the seen set and skips the insert
entirely on the already-seen branch, so a duplicated offset is decoded
twice. -/
theorem c1_duplicate_offset_decoded_twice :
    SegmentIterator.new "seg" "all" (some ["err", "eror"]) (fun _ => some [])
        (fun _ => Except.ok [0]) (some bufTs100) 7 "eror" "p" 0 0 =
      RunResult.ok dupIt ∧
    dupIt.entries.length = 2 ∧
    dupIt.entries = [{ line := [], ts := 100 }, { line := [], ts := 100 }] :=
  ⟨by decide, rfl, rfl⟩

/-- Claim C2 fails on the code: a successful construction with an empty
result list gives an iterator on which `entry()` does return none, but the
first `next()` call does not return the exhaustion signal: the bounds check
`current_index >= len - 1` underflows (wrapping to `2^64 - 1` in a release
build; a debug build panics), so `next()` returns the continue signal
`some ()`. -/
theorem c2_empty_result_next_underflows :
    SegmentIterator.new "seg" "all" none (fun _ => some [])
        (fun _ => Except.ok []) (some []) 7 "" "p" 0 0 =
      RunResult.ok emptySegIt ∧
    SegmentIterator.entry emptySegIt = none ∧
    (SegmentIterator.next emptySegIt).1 = some () :=
  ⟨by decide, rfl, by decide⟩
